import Mathlib

/-!
Verification of the flashcard-generation pipeline (`lambda_function.py`,
`agents.py`): a shallow embedding of the JSON data model, the structured
output extractor `_extract_json_from_text`, the stage agents' return
conventions and the orchestrator `_run_pipeline`, together with theorems
settling the frozen claims about them.  Text is modelled as `List Char`
(one entry per Python code point).
-/

/-- JSON values, as produced by the Python `json` module.  Numbers are
restricted to integers (the fragment the pipeline's decision logic ever
inspects); object fields keep their textual order, and lookups resolve
duplicate keys to the last occurrence, as Python `dict` construction
does. -/
inductive JVal where
  | null
  | bool (b : Bool)
  | num (n : Int)
  | str (s : List Char)
  | arr (elems : List JVal)
  | obj (fields : List (List Char × JVal))

/-- Shorthand turning a Lean string literal into the character list the
embedding works over. -/
def cs (s : String) : List Char := s.toList

/-- Python truthiness on JSON values (`if not chunks`, `parsed if parsed
else full_text`, ...). -/
def jtruthy : JVal → Bool
  | .null => false
  | .bool b => b
  | .num n => n != 0
  | .str s => !s.isEmpty
  | .arr l => !l.isEmpty
  | .obj f => !f.isEmpty

/-- Python `dict` lookup on an object's field list: the last occurrence
of a key wins (later inserts overwrite earlier ones). -/
def jget (fields : List (List Char × JVal)) (key : List Char) : Option JVal :=
  match fields with
  | [] => none
  | (k, v) :: rest =>
    match jget rest key with
    | some w => some w
    | none => if k = key then some v else none

/-- Python `str.strip()` restricted to ASCII whitespace. -/
def pyStrip (s : List Char) : List Char :=
  ((s.dropWhile Char.isWhitespace).reverse.dropWhile Char.isWhitespace).reverse

/-- Index of the first occurrence of `pat` in a list (Python `str.find`
returning `none` instead of `-1`). -/
def findSub (pat : List Char) : List Char → Option Nat
  | [] => if pat.isPrefixOf ([] : List Char) then some 0 else none
  | c :: rest =>
    if pat.isPrefixOf (c :: rest) then some 0
    else (findSub pat rest).map (· + 1)

/-- Python `s.find(pat, start)`: search from `start`, absolute index. -/
def pyFind (s pat : List Char) (start : Nat) : Option Nat :=
  (findSub pat (s.drop start)).map (· + start)

/-- Python slice `s[a:b]` for `0 ≤ a`, `0 ≤ b`. -/
def pySlice (s : List Char) (a b : Nat) : List Char :=
  (s.take b).drop a

/-- `int(x)` applied to a parsed JSON value: numbers pass through, bools
coerce, numeric strings parse, everything else raises (`none`). -/
def digitsToNat (ds : List Char) : Option Nat :=
  if !ds.isEmpty && ds.all Char.isDigit then
    some (ds.foldl (fun a c => a * 10 + (c.toNat - '0'.toNat)) 0)
  else none

def pyIntOfChars (s : List Char) : Option Int :=
  match pyStrip s with
  | '-' :: ds => (digitsToNat ds).map (fun n => -(n : Int))
  | '+' :: ds => (digitsToNat ds).map (fun n => (n : Int))
  | ds => (digitsToNat ds).map (fun n => (n : Int))

def pyInt : JVal → Option Int
  | .num n => some n
  | .bool b => some (if b then 1 else 0)
  | .str s => pyIntOfChars s
  | _ => none

/-! ## Model of `json.loads` / `json.dumps`

The pipeline treats the Python `json` module as a black box; the model
below implements the integer fragment of JSON (objects, arrays, strings
with the basic escapes, integers, booleans, null).  `json_loads` requires
the whole input to be consumed up to trailing whitespace, as the real
`json.loads` does. -/

/-- Skip the whitespace `json.loads` accepts between tokens. -/
def skipWs (s : List Char) : List Char :=
  s.dropWhile fun c => c = ' ' || c = '\t' || c = '\n' || c = '\r'

/-- Parse the body of a JSON string after the opening quote, handling the
escapes `json.dumps` emits on the ASCII fragment (`\uXXXX` elided). -/
def jparseString : List Char → Option (List Char × List Char)
  | [] => none
  | '"' :: rest => some ([], rest)
  | '\\' :: esc :: rest =>
    (match esc with
     | '"' => some '"'
     | '\\' => some '\\'
     | '/' => some '/'
     | 'n' => some '\n'
     | 't' => some '\t'
     | 'r' => some '\r'
     | _ => none).bind fun c =>
      (jparseString rest).map fun (tail, rem) => (c :: tail, rem)
  | c :: rest => (jparseString rest).map fun (tail, rem) => (c :: tail, rem)

/-- Parse a maximal run of decimal digits. -/
def jparseDigits (s : List Char) : Option (Nat × List Char) :=
  let ds := s.takeWhile Char.isDigit
  if ds.isEmpty then none
  else some (ds.foldl (fun a c => a * 10 + (c.toNat - '0'.toNat)) 0, s.drop ds.length)

mutual

def jparse : Nat → List Char → Option (JVal × List Char)
  | 0, _ => none
  | fuel + 1, s =>
    match skipWs s with
    | 'n' :: 'u' :: 'l' :: 'l' :: rest => some (JVal.null, rest)
    | 't' :: 'r' :: 'u' :: 'e' :: rest => some (JVal.bool true, rest)
    | 'f' :: 'a' :: 'l' :: 's' :: 'e' :: rest => some (JVal.bool false, rest)
    | '"' :: rest => (jparseString rest).map fun (txt, rem) => (JVal.str txt, rem)
    | '-' :: rest => (jparseDigits rest).map fun (n, rem) => (JVal.num (-(n : Int)), rem)
    | '{' :: rest =>
      (match skipWs rest with
       | '}' :: rem => some (JVal.obj [], rem)
       | _ => (jparseObjFields fuel rest).map fun (fs, rem) => (JVal.obj fs, rem))
    | '[' :: rest =>
      (match skipWs rest with
       | ']' :: rem => some (JVal.arr [], rem)
       | _ => (jparseArr fuel rest).map fun (es, rem) => (JVal.arr es, rem))
    | other => (jparseDigits other).map fun (n, rem) => (JVal.num (n : Int), rem)

def jparseArr : Nat → List Char → Option (List JVal × List Char)
  | 0, _ => none
  | fuel + 1, s =>
    (jparse fuel s).bind fun (v, rem) =>
      match skipWs rem with
      | ',' :: rest => (jparseArr fuel rest).map fun (vs, rem2) => (v :: vs, rem2)
      | ']' :: rest => some ([v], rest)
      | _ => none

def jparseObjFields : Nat → List Char → Option (List (List Char × JVal) × List Char)
  | 0, _ => none
  | fuel + 1, s =>
    match skipWs s with
    | '"' :: rest =>
      (jparseString rest).bind fun (key, r1) =>
        match skipWs r1 with
        | ':' :: r2 =>
          (jparse fuel r2).bind fun (v, r3) =>
            match skipWs r3 with
            | ',' :: r4 => (jparseObjFields fuel r4).map fun (fs, rem) => ((key, v) :: fs, rem)
            | '}' :: r5 => some ([(key, v)], r5)
            | _ => none
        | _ => none
    | _ => none

end

/-- Model of Python `json.loads`: parse one complete JSON document; only
trailing whitespace may remain, otherwise the call raises (`none`). -/
def json_loads (s : List Char) : Option JVal :=
  match jparse (2 * s.length + 2) s with
  | some (v, rest) => if skipWs rest = [] then some v else none
  | none => none

/-- Escaping of one character inside a dumped JSON string as `json.dumps`
does on the ASCII fragment (control and non-ASCII escapes elided). -/
def jescape (c : Char) : List Char :=
  if c = '"' then ['\\', '"'] else if c = '\\' then ['\\', '\\'] else [c]

def jdumpString (s : List Char) : List Char :=
  '"' :: ((s.map jescape).flatten ++ ['"'])

def natChars (n : Nat) : List Char := Nat.toDigits 10 n

def intChars (n : Int) : List Char :=
  if n < 0 then '-' :: natChars n.natAbs else natChars n.toNat

mutual

/-- Model of Python `json.dumps` with its default separators (`", "` and
`": "`) on the integer fragment of JSON. -/
def json_dumps : JVal → List Char
  | .null => cs "null"
  | .bool true => cs "true"
  | .bool false => cs "false"
  | .num n => intChars n
  | .str s => jdumpString s
  | .arr es => '[' :: (jdumpsArr es ++ [']'])
  | .obj fs => '{' :: (jdumpsObj fs ++ ['}'])

def jdumpsArr : List JVal → List Char
  | [] => []
  | [v] => json_dumps v
  | v :: vs => json_dumps v ++ cs ", " ++ jdumpsArr vs

def jdumpsObj : List (List Char × JVal) → List Char
  | [] => []
  | [(k, v)] => jdumpString k ++ cs ": " ++ json_dumps v
  | (k, v) :: fs => jdumpString k ++ cs ": " ++ json_dumps v ++ cs ", " ++ jdumpsObj fs

end

/-! ## The structured-output extractor (`agents.py`, lines 242-280) -/

/-- `_extract_json_from_text` (agents.py): extract a JSON object from a
fenced block tagged `json`, else from the first fenced code block, else
from the raw text; `none` when every attempt fails.  The underlying
`json.loads` is the `parse` parameter. -/
def _extract_json_from_text (parse : List Char → Option JVal) (full_text : List Char) :
    Option JVal :=
  if full_text.isEmpty then none
  else
    match
      (match pyFind full_text (cs "```json") 0 with
       | some start =>
         match pyFind full_text (cs "```") (start + (cs "```json").length) with
         | some e => parse (pyStrip (pySlice full_text (start + (cs "```json").length) e))
         | none => none
       | none => none)
    with
    | some v => some v
    | none =>
      match
        (match pyFind full_text (cs "```") 0 with
         | some start2 =>
           match pyFind full_text (cs "```") (start2 + (cs "```").length) with
           | some end2 => parse (pyStrip (pySlice full_text (start2 + (cs "```").length) end2))
           | none => none
         | none => none)
      with
      | some v => some v
      | none => parse full_text

/-- Strategy (a) in the spec's words: parse the contents of the first
fenced block explicitly tagged as JSON. -/
def fencedJsonStrategy (parse : List Char → Option JVal) (t : List Char) : Option JVal :=
  match pyFind t (cs "```json") 0 with
  | some start =>
    match pyFind t (cs "```") (start + (cs "```json").length) with
    | some e => parse (pyStrip (pySlice t (start + (cs "```json").length) e))
    | none => none
  | none => none

/-- Strategy (b) in the spec's words: parse the contents of the first
fenced code block. -/
def fencedBlockStrategy (parse : List Char → Option JVal) (t : List Char) : Option JVal :=
  match pyFind t (cs "```") 0 with
  | some start2 =>
    match pyFind t (cs "```") (start2 + (cs "```").length) with
    | some end2 => parse (pyStrip (pySlice t (start2 + (cs "```").length) end2))
    | none => none
  | none => none

/-- Strategy (c) in the spec's words: parse the entire text as JSON. -/
def wholeTextStrategy (parse : List Char → Option JVal) (t : List Char) : Option JVal :=
  parse t

/-- First success of three attempts, `none` if all three fail. -/
def firstSome3 (a b c : Option JVal) : Option JVal :=
  match a with
  | some v => some v
  | none =>
    match b with
    | some v => some v
    | none => c

/-! ## Stage-agent return conventions (`agents.py`) -/

/-- What a stage agent hands back to the orchestrator: a parsed JSON
value or the backend's raw response text. -/
inductive AgentOut where
  | json (v : JVal)
  | raw (t : List Char)

/-- Shared tail of `ChunkSplitterAgent.run`, `ContentInstructionAgent.run`
and `FlashcardQualityAgent.run`:
`parsed = _extract_json_from_text(full_text) or {}` followed by
`return parsed if parsed else full_text`. -/
def parsedOrRawReturn (full_text : List Char) : AgentOut :=
  let parsed := (_extract_json_from_text json_loads full_text).getD (JVal.obj [])
  if jtruthy parsed then AgentOut.json parsed else AgentOut.raw full_text

def ChunkSplitterAgent_run (full_text : List Char) : AgentOut :=
  parsedOrRawReturn full_text

def ContentInstructionAgent_run (full_text : List Char) : AgentOut :=
  parsedOrRawReturn full_text

def FlashcardQualityAgent_run (full_text : List Char) : AgentOut :=
  parsedOrRawReturn full_text

/-- Tail of `FlashcardGeneratorAgent.run` (agents.py 476-497): the
`if json_obj is None` test cannot tell an extraction failure from a
successfully parsed JSON `null` — both reach the caller as Python
`None` — so either yields `{}`; any other parsed value is returned
as-is; never the raw response text. -/
def FlashcardGeneratorAgent_run (full_text : List Char) : AgentOut :=
  match _extract_json_from_text json_loads full_text with
  | none => AgentOut.json (JVal.obj [])
  | some JVal.null => AgentOut.json (JVal.obj [])
  | some v => AgentOut.json v

/-! ## The pipeline orchestrator (`lambda_function.py`, `_run_pipeline`)

Every agent invocation is a network round trip; its response is drawn
from an `Env` oracle (one slot per call the straight-line code makes:
the chunk splitter, the generator per chunk on each of the two passes,
and the quality reviewer on each pass).  A Python exception is modelled
as `none`; the supabase batch insert is modelled as echoing the rows it
is given. -/

structure Env where
  chunk_out : AgentOut
  gen1 : Nat → AgentOut
  qa1 : AgentOut
  gen2 : Nat → AgentOut
  qa2 : AgentOut

/-- `_ensure_list` (lambda_function.py 134-136) on an object's fields:
`obj.get(key, [])`, kept only when the value is a list. -/
def _ensure_list (fields : List (List Char × JVal)) (key : List Char) : List JVal :=
  match jget fields key with
  | some (.arr l) => l
  | some _ => []
  | none => []

/-- The synthetic fallback chunk (lambda_function.py 229-236). -/
def fallbackChunk (input_text : List Char) : JVal :=
  JVal.arr [JVal.obj [
    (cs "index", JVal.num 0),
    (cs "title", JVal.null),
    (cs "heading_level", JVal.null),
    (cs "language", JVal.str (cs "und")),
    (cs "span", JVal.obj [(cs "start", JVal.num 0), (cs "end", JVal.num input_text.length)]),
    (cs "text", JVal.str input_text)]]

/-- Chunk resolution (lambda_function.py 225-236): take `chunk_out["chunks"]`
when the splitter returned a dict, and substitute the synthetic whole-text
chunk whenever that value is missing or falsy. -/
def resolveChunks (chunk_out : AgentOut) (input_text : List Char) : JVal :=
  let chunks : Option JVal :=
    match chunk_out with
    | .json (.obj fields) => jget fields (cs "chunks")
    | _ => none
  match chunks with
  | some v => if jtruthy v then v else fallbackChunk input_text
  | none => fallbackChunk input_text

/-- The "chunks" value the splitter reported, when there is one
(spec-facing accessor used to state the fallback claim). -/
def chunksField (o : AgentOut) : Option JVal :=
  match o with
  | .json (.obj fields) => jget fields (cs "chunks")
  | _ => none

/-- `for ch in chunks` with `ch.get(...)` needs a list of dicts; any
other shape raises (`none`). -/
def asObjList : JVal → Option (List (List (List Char × JVal)))
  | .arr l =>
    l.mapM fun x =>
      match x with
      | JVal.obj f => some f
      | _ => none
  | _ => none

/-- Candidate-card collection from one generator result
(lambda_function.py 262-266): a dict carrying "cards" contributes that
list, a list is read as a list of batch dicts (a non-dict batch raises),
anything else contributes nothing. -/
def genCards : AgentOut → Option (List JVal)
  | .json (.obj fields) =>
    if (jget fields (cs "cards")).isSome then some (_ensure_list fields (cs "cards"))
    else some []
  | .json (.arr batches) =>
    (batches.mapM fun b =>
      match b with
      | JVal.obj bf => some (_ensure_list bf (cs "cards"))
      | _ => none).map List.flatten
  | _ => some []

/-- Steps 1-3 of `_run_pipeline` (lines 225-266): resolve the chunk list
and collect `candidate_cards` across chunks in order. -/
def genPhase (env : Env) (input_text : List Char) :
    Option (List (List (List Char × JVal)) × List JVal) :=
  match asObjList (resolveChunks env.chunk_out input_text) with
  | none => none
  | some chunks =>
    match (List.range chunks.length).mapM (fun i => genCards (env.gen1 i)) with
    | none => none
    | some card_lists => some (chunks, card_lists.flatten)

/-- First-pass review consumption (lines 286-291): a dict yields its
"accepted" list and `int(summary.get("rejected_count", 0))` (a truthy
non-dict "summary", or a count `int()` rejects, raises); any other
reviewer output leaves zero accepted and zero rejected. -/
def qaPass : AgentOut → Option (List JVal × Int)
  | .json (.obj fields) =>
    let accepted := _ensure_list fields (cs "accepted")
    let summary : JVal :=
      match jget fields (cs "summary") with
      | some v => if jtruthy v then v else JVal.obj []
      | none => JVal.obj []
    (match summary with
     | .obj sf =>
       match pyInt ((jget sf (cs "rejected_count")).getD (JVal.num 0)) with
       | some r => some (accepted, r)
       | none => none
     | _ => none)
  | _ => some ([], 0)

/-- Retry criterion (line 297):
`candidate_cards and rejected_count / max(1, len(candidate_cards)) > 0.3`.
The float comparison is embedded as the exact rational inequality
`10 * rejected > 3 * max 1 count`; the two agree at every magnitude the
pipeline can produce (the double rounding of `0.3` only diverges from
3/10 for counts around 10^16). -/
def retryCond (candidate_cards : List JVal) (rejected_count : Int) : Bool :=
  !candidate_cards.isEmpty &&
    decide (10 * rejected_count > 3 * max 1 (candidate_cards.length : Int))

/-- Accepted set after the conditional second review (lines 326-338): on
a retry, a dict second-review output replaces the accepted set wholesale;
any other second-review output leaves the first pass's accepted set in
place. -/
def finalAcceptedOf (env : Env) (accepted_cards : List JVal) (retry : Bool) : List JVal :=
  if retry then
    match env.qa2 with
    | .json (.obj f2) => _ensure_list f2 (cs "accepted")
    | _ => accepted_cards
  else accepted_cards

/-- Row construction for one accepted card (lambda_function.py 378-391);
a card that is not a JSON object makes `c.get` raise (`none`). -/
structure Row where
  user_id : List Char
  deck_id : List Char
  source_id : List Char
  type : JVal
  front : JVal
  back : JVal
  hint : JVal
  tags : JVal
  difficulty : JVal
  source_span : JVal
  extras : JVal

def rowOfCard (user_id deck_id source_id : List Char) : JVal → Option Row
  | .obj f => some {
      user_id := user_id,
      deck_id := deck_id,
      source_id := source_id,
      type := (jget f (cs "type")).getD (JVal.str (cs "basic")),
      front := (jget f (cs "front")).getD (JVal.str []),
      back := (jget f (cs "back")).getD (JVal.str []),
      hint := (jget f (cs "hint")).getD JVal.null,
      tags := (jget f (cs "tags")).getD (JVal.arr []),
      difficulty := (jget f (cs "difficulty")).getD (JVal.num 2),
      source_span := (jget f (cs "source_span")).getD JVal.null,
      extras := (jget f (cs "extras")).getD (JVal.obj []) }
  | _ => none

/-- Observable outcome of one `_run_pipeline` run.  `qaCalls` and
`genCallsPerChunk` record how often the reviewer, and the generator on
each chunk, were invoked: once per pass, the code being straight-line
with a single conditional second pass. -/
structure Outcome where
  chunks : List (List (List Char × JVal))
  candidates : List JVal
  accepted1 : List JVal
  rejectedCount : Int
  retried : Bool
  finalAccepted : List JVal
  insertedCount : Nat
  acceptedPreview : List JVal
  qaCalls : Nat
  genCallsPerChunk : Nat

/-- `_run_pipeline` (lambda_function.py 140-401), restricted to the
decision logic the claims are about: chunk fallback, candidate
collection, first review, the conditional single regeneration pass, the
second review's wholesale replacement, row construction with defaults
and the final counts (the source/deck bookkeeping rows are opaque to
every claim and elided). -/
def _run_pipeline (env : Env) (input_text user_id deck_id source_id : List Char) :
    Option Outcome :=
  match genPhase env input_text with
  | none => none
  | some (chunks, candidate_cards) =>
    match qaPass env.qa1 with
    | none => none
    | some (accepted_cards, rejected_count) =>
      let retry := retryCond candidate_cards rejected_count
      let pass2 : Option (List JVal) :=
        if retry then
          match (List.range chunks.length).mapM (fun i => genCards (env.gen2 i)) with
          | none => none
          | some _improved => some (finalAcceptedOf env accepted_cards retry)
        else some accepted_cards
      match pass2 with
      | none => none
      | some finalAccepted =>
        match finalAccepted.mapM (rowOfCard user_id deck_id source_id) with
        | none => none
        | some rows =>
          some {
            chunks := chunks,
            candidates := candidate_cards,
            accepted1 := accepted_cards,
            rejectedCount := rejected_count,
            retried := retry,
            finalAccepted := finalAccepted,
            insertedCount := rows.length,
            acceptedPreview := finalAccepted.take 10,
            qaCalls := if retry then 2 else 1,
            genCallsPerChunk := if retry then 2 else 1 }

/-- The accepted list carried by a reviewer output: its "accepted" list
when it is an object, nothing otherwise (the spec reads an unparseable
review as zero accepted).  Spec-facing accessor. -/
def reviewAccepted : AgentOut → List JVal
  | .json (.obj f) => _ensure_list f (cs "accepted")
  | _ => []

/-- Whether an agent output is a parsed JSON object (Python
`isinstance(x, dict)`). -/
def isDictOut : AgentOut → Bool
  | .json (.obj _) => true
  | _ => false

/-- Modelled from the spec: the dedup key of the Card data model — the
`front` text lowercased with punctuation stripped.  The repository has no
code computing this normalization (the reviewer's prompt is its only
trace), so it follows the spec's words, over a representative ASCII
punctuation set. -/
def normalizeFront (s : List Char) : List Char :=
  (s.map Char.toLower).filter fun c =>
    !(c = '!' || c = '?' || c = '.' || c = ',' || c = ';' || c = ':')

/-- The `front` text of a card, when present and textual. -/
def cardFront : JVal → List Char
  | .obj f =>
    (match jget f (cs "front") with
     | some (.str s) => s
     | _ => [])
  | _ => []

def cardNormFront (c : JVal) : List Char := normalizeFront (cardFront c)

/-! ## Concrete runs used as witnesses and counterexamples -/

def emptyOutcome : Outcome := ⟨[], [], [], 0, false, [], 0, [], 0, 0⟩

/-- A run with an empty candidate list whose reviewer still reports one
rejection: the rejection ratio exceeds 0.3 yet no retry happens. -/
def c1cEnv : Env := {
  chunk_out := AgentOut.raw (cs "x"),
  gen1 := fun _ => AgentOut.json (JVal.obj []),
  qa1 := AgentOut.json (JVal.obj [(cs "summary", JVal.obj [(cs "rejected_count", JVal.num 1)])]),
  gen2 := fun _ => AgentOut.json (JVal.obj []),
  qa2 := AgentOut.raw (cs "x") }

/-- A run with 10 candidates and 4 rejections: the retry fires. -/
def c1wEnv : Env := {
  chunk_out := AgentOut.raw (cs "x"),
  gen1 := fun _ => AgentOut.json (JVal.obj [(cs "cards", JVal.arr (List.replicate 10 (JVal.obj [])))]),
  qa1 := AgentOut.json (JVal.obj [
    (cs "accepted", JVal.arr []),
    (cs "summary", JVal.obj [(cs "rejected_count", JVal.num 4)])]),
  gen2 := fun _ => AgentOut.json (JVal.obj []),
  qa2 := AgentOut.json (JVal.obj [(cs "accepted", JVal.arr [])]) }

def c1wOut : Outcome :=
  (_run_pipeline c1wEnv (cs "t") (cs "u") (cs "d") (cs "s")).getD emptyOutcome

def c2wEnv : Env := {
  chunk_out := AgentOut.raw (cs "x"),
  gen1 := fun _ => AgentOut.json (JVal.obj [(cs "cards", JVal.arr (List.replicate 10 (JVal.obj [])))]),
  qa1 := AgentOut.json (JVal.obj [
    (cs "accepted", JVal.arr []),
    (cs "summary", JVal.obj [(cs "rejected_count", JVal.num 9)])]),
  gen2 := fun _ => AgentOut.json (JVal.obj []),
  qa2 := AgentOut.json (JVal.obj [(cs "summary", JVal.obj [(cs "rejected_count", JVal.num 9)])]) }

def c2wOut : Outcome :=
  (_run_pipeline c2wEnv (cs "t") (cs "u") (cs "d") (cs "s")).getD emptyOutcome

/-- A retried run whose second review is an unparseable string while the
first review accepted one card. -/
def c3cEnv : Env := {
  chunk_out := AgentOut.raw (cs "x"),
  gen1 := fun _ => AgentOut.json (JVal.obj [(cs "cards", JVal.arr (List.replicate 10 (JVal.obj [])))]),
  qa1 := AgentOut.json (JVal.obj [
    (cs "accepted", JVal.arr [JVal.obj [(cs "front", JVal.str (cs "keep"))]]),
    (cs "summary", JVal.obj [(cs "rejected_count", JVal.num 4)])]),
  gen2 := fun _ => AgentOut.json (JVal.obj []),
  qa2 := AgentOut.raw (cs "oops") }

/-- A retried run whose second review is a dict accepting one fresh card. -/
def c3wEnv : Env := {
  chunk_out := AgentOut.raw (cs "x"),
  gen1 := fun _ => AgentOut.json (JVal.obj [(cs "cards", JVal.arr (List.replicate 10 (JVal.obj [])))]),
  qa1 := AgentOut.json (JVal.obj [
    (cs "accepted", JVal.arr [JVal.obj [(cs "front", JVal.str (cs "old"))]]),
    (cs "summary", JVal.obj [(cs "rejected_count", JVal.num 4)])]),
  gen2 := fun _ => AgentOut.json (JVal.obj []),
  qa2 := AgentOut.json (JVal.obj [(cs "accepted", JVal.arr [JVal.obj [(cs "front", JVal.str (cs "new"))]])]) }

def c3wOut : Outcome :=
  (_run_pipeline c3wEnv (cs "t") (cs "u") (cs "d") (cs "s")).getD emptyOutcome

/-- Same shape as `c3cEnv`: a retried run whose second review is
unparseable, so the first pass's accepted card is persisted. -/
def c4cEnv : Env := {
  chunk_out := AgentOut.raw (cs "x"),
  gen1 := fun _ => AgentOut.json (JVal.obj [(cs "cards", JVal.arr (List.replicate 10 (JVal.obj [])))]),
  qa1 := AgentOut.json (JVal.obj [
    (cs "accepted", JVal.arr [JVal.obj [(cs "front", JVal.str (cs "kept"))]]),
    (cs "summary", JVal.obj [(cs "rejected_count", JVal.num 5)])]),
  gen2 := fun _ => AgentOut.json (JVal.obj []),
  qa2 := AgentOut.raw (cs "garbage") }

/-- A run whose (first) review output is an unparseable string. -/
def c4wEnv : Env := {
  chunk_out := AgentOut.raw (cs "x"),
  gen1 := fun _ => AgentOut.json (JVal.obj [(cs "cards", JVal.arr [JVal.obj []])]),
  qa1 := AgentOut.raw (cs "oops"),
  gen2 := fun _ => AgentOut.json (JVal.obj []),
  qa2 := AgentOut.raw (cs "oops") }

/-- A payload whose string content embeds a fenced `json` block: its own
serialization no longer round-trips through the extractor. -/
def c7Payload : JVal := JVal.obj [(cs "a", JVal.str (cs "```json 12 ```"))]

def dupFrontCard : JVal := JVal.obj [(cs "front", JVal.str (cs "dup"))]

/-- A run whose reviewer accepts the same card twice. -/
def c9cEnv : Env := {
  chunk_out := AgentOut.raw (cs "x"),
  gen1 := fun _ => AgentOut.json (JVal.obj []),
  qa1 := AgentOut.json (JVal.obj [(cs "accepted", JVal.arr [dupFrontCard, dupFrontCard])]),
  gen2 := fun _ => AgentOut.json (JVal.obj []),
  qa2 := AgentOut.raw (cs "x") }

/-- A run whose reviewer accepts two cards with distinct fronts. -/
def c9wEnv : Env := {
  chunk_out := AgentOut.raw (cs "x"),
  gen1 := fun _ => AgentOut.json (JVal.obj []),
  qa1 := AgentOut.json (JVal.obj [(cs "accepted", JVal.arr [
    JVal.obj [(cs "front", JVal.str (cs "alpha"))],
    JVal.obj [(cs "front", JVal.str (cs "beta"))]])]),
  gen2 := fun _ => AgentOut.json (JVal.obj []),
  qa2 := AgentOut.raw (cs "x") }

def c9wOut : Outcome :=
  (_run_pipeline c9wEnv (cs "t") (cs "u") (cs "d") (cs "s")).getD emptyOutcome

/-- The row an entirely empty accepted card maps to: every defaulted
field. -/
def c10Row : Row := {
  user_id := cs "u",
  deck_id := cs "d",
  source_id := cs "s",
  type := JVal.str (cs "basic"),
  front := JVal.str [],
  back := JVal.str [],
  hint := JVal.null,
  tags := JVal.arr [],
  difficulty := JVal.num 2,
  source_span := JVal.null,
  extras := JVal.obj [] }

/-! ## Helper lemmas -/

theorem qaPass_nonDict (o : AgentOut) (h : isDictOut o = false) :
    qaPass o = some ([], 0) := by
  cases o with
  | raw t => rfl
  | json v =>
    cases v with
    | obj f => simp [isDictOut] at h
    | null => rfl
    | bool b => rfl
    | num n => rfl
    | str s => rfl
    | arr l => rfl

theorem qaPass_accepted (o : AgentOut) (a : List JVal) (r : Int)
    (h : qaPass o = some (a, r)) : a = reviewAccepted o := by
  cases o with
  | raw t =>
    simp only [qaPass] at h
    obtain ⟨rfl, rfl⟩ := Prod.mk.injEq .. ▸ Option.some.inj h
    rfl
  | json v =>
    cases v with
    | obj f =>
      simp only [qaPass] at h
      split at h
      · split at h
        · obtain h' := Option.some.inj h
          have : a = _ensure_list f (cs "accepted") := (congrArg Prod.fst h').symm
          simpa [reviewAccepted] using this
        · exact absurd h (by simp)
      · exact absurd h (by simp)
    | null =>
      simp only [qaPass] at h
      obtain h' := Option.some.inj h
      have : a = [] := (congrArg Prod.fst h').symm
      simpa [reviewAccepted] using this
    | bool b =>
      simp only [qaPass] at h
      obtain h' := Option.some.inj h
      have : a = [] := (congrArg Prod.fst h').symm
      simpa [reviewAccepted] using this
    | num n =>
      simp only [qaPass] at h
      obtain h' := Option.some.inj h
      have : a = [] := (congrArg Prod.fst h').symm
      simpa [reviewAccepted] using this
    | str s =>
      simp only [qaPass] at h
      obtain h' := Option.some.inj h
      have : a = [] := (congrArg Prod.fst h').symm
      simpa [reviewAccepted] using this
    | arr l =>
      simp only [qaPass] at h
      obtain h' := Option.some.inj h
      have : a = [] := (congrArg Prod.fst h').symm
      simpa [reviewAccepted] using this

theorem retryCond_rejected_zero (c : List JVal) : retryCond c 0 = false := by
  unfold retryCond
  have h1 : (1 : Int) ≤ max 1 (c.length : Int) := le_max_left _ _
  have h2 : ¬ (10 * (0 : Int) > 3 * max 1 (c.length : Int)) := by linarith
  simp [h2]

theorem findSub_isSome_mono (p q : List Char) (hpq : p <+: q) :
    ∀ t : List Char, (findSub q t).isSome → (findSub p t).isSome := by
  intro t
  induction t with
  | nil =>
    intro h
    simp only [findSub] at h ⊢
    split at h
    · rename_i hq
      have hq' : q = [] := List.prefix_nil.mp (List.isPrefixOf_iff_prefix.mp hq)
      have hp' : p = [] := List.prefix_nil.mp (hq' ▸ hpq)
      simp [hp']
    · simp at h
  | cons c rest ih =>
    intro h
    simp only [findSub] at h ⊢
    by_cases hp : p.isPrefixOf (c :: rest)
    · simp [hp]
    · rw [if_neg hp]
      split at h
      · rename_i hq
        exact absurd
          (List.isPrefixOf_iff_prefix.mpr (hpq.trans (List.isPrefixOf_iff_prefix.mp hq))) hp
      · cases hfq : findSub q rest with
        | none => rw [hfq] at h; simp at h
        | some k =>
          have hsome : (findSub p rest).isSome := ih (by rw [hfq]; rfl)
          cases hfp : findSub p rest with
          | none => rw [hfp] at hsome; simp at hsome
          | some m => simp [hfp]

/-- Dissection of a successful `_run_pipeline` run into its stages. -/
theorem run_pipeline_char (env : Env) (t u d s : List Char) (out : Outcome)
    (h : _run_pipeline env t u d s = some out) :
    ∃ chunks candidates accepted1 rejected rows,
      genPhase env t = some (chunks, candidates) ∧
      qaPass env.qa1 = some (accepted1, rejected) ∧
      (finalAcceptedOf env accepted1 (retryCond candidates rejected)).mapM
        (rowOfCard u d s) = some rows ∧
      out = {
        chunks := chunks,
        candidates := candidates,
        accepted1 := accepted1,
        rejectedCount := rejected,
        retried := retryCond candidates rejected,
        finalAccepted := finalAcceptedOf env accepted1 (retryCond candidates rejected),
        insertedCount := rows.length,
        acceptedPreview := (finalAcceptedOf env accepted1 (retryCond candidates rejected)).take 10,
        qaCalls := if retryCond candidates rejected then 2 else 1,
        genCallsPerChunk := if retryCond candidates rejected then 2 else 1 } := by
  unfold _run_pipeline at h
  cases hg : genPhase env t with
  | none => rw [hg] at h; exact absurd h (by simp)
  | some p =>
    obtain ⟨chunks, candidates⟩ := p
    rw [hg] at h
    cases hq : qaPass env.qa1 with
    | none => rw [hq] at h; exact absurd h (by simp)
    | some q =>
      obtain ⟨accepted1, rejected⟩ := q
      rw [hq] at h
      dsimp only at h
      by_cases hr : retryCond candidates rejected
      · rw [if_pos hr] at h
        cases hm : (List.range chunks.length).mapM (fun i => genCards (env.gen2 i)) with
        | none => rw [hm] at h; exact absurd h (by simp)
        | some improved =>
          rw [hm] at h
          dsimp only at h
          cases hrows : (finalAcceptedOf env accepted1 (retryCond candidates rejected)).mapM
              (rowOfCard u d s) with
          | none => rw [hrows] at h; exact absurd h (by simp)
          | some rows =>
            rw [hrows] at h
            dsimp only at h
            exact ⟨chunks, candidates, accepted1, rejected, rows, rfl, rfl, hrows,
              (Option.some.inj h).symm⟩
      · rw [if_neg hr] at h
        dsimp only at h
        have hfin : finalAcceptedOf env accepted1 (retryCond candidates rejected) = accepted1 := by
          have : retryCond candidates rejected = false := by
            cases hb : retryCond candidates rejected
            · rfl
            · exact absurd hb hr
          rw [this]; rfl
        cases hrows : accepted1.mapM (rowOfCard u d s) with
        | none => rw [hrows] at h; exact absurd h (by simp)
        | some rows =>
          rw [hrows] at h
          dsimp only at h
          refine ⟨chunks, candidates, accepted1, rejected, rows, rfl, rfl, ?_, ?_⟩
          · rw [hfin]; exact hrows
          · rw [← Option.some.inj h]
            have hrf : retryCond candidates rejected = false := by
              cases hb : retryCond candidates rejected
              · rfl
              · exact absurd hb hr
            simp [hfin, hrf, finalAcceptedOf]

/-! ## Claims -/

/-- C1 (amended): the orchestrator performs a regeneration pass iff the
candidate list accumulated in the generation step is non-empty and
rejectedCount / max(1, candidateCount) is strictly greater than 0.3 (the
inequality stated exactly, by cross-multiplication).  The claim's plain
"iff with the ratio" fails when the candidate list is empty, because of
the `candidate_cards and ...` guard on line 297. -/
theorem claim_c1_retry_iff_ratio (env : Env) (t u d s : List Char) (out : Outcome)
    (h : _run_pipeline env t u d s = some out) :
    out.retried = true ↔
      (out.candidates ≠ [] ∧
        10 * out.rejectedCount > 3 * max 1 (out.candidates.length : Int)) := by
  obtain ⟨chunks, candidates, accepted1, rejected, rows, hg, hq, hrows, rfl⟩ :=
    run_pipeline_char env t u d s out h
  dsimp only
  simp [retryCond]

/-- C1 counterexample: with an empty candidate list and a reviewer
summary reporting one rejection, the ratio 1 / max(1, 0) = 1 exceeds 0.3
yet no regeneration occurs. -/
theorem claim_c1_counterexample :
    (_run_pipeline c1cEnv (cs "t") (cs "u") (cs "d") (cs "s")).map
      (fun o => (o.retried, o.candidates.length, o.rejectedCount)) = some (false, 0, 1)
    ∧ 10 * (1 : Int) > 3 * max 1 ((0 : Nat) : Int) :=
  ⟨rfl, by decide⟩

/-- C1 witness: a run with 10 candidates and 4 rejections satisfies the
amended equivalence (and does retry). -/
theorem claim_c1_witness :
    c1wOut.retried = true ↔
      (c1wOut.candidates ≠ [] ∧
        10 * c1wOut.rejectedCount > 3 * max 1 (c1wOut.candidates.length : Int)) :=
  claim_c1_retry_iff_ratio c1wEnv (cs "t") (cs "u") (cs "d") (cs "s") c1wOut rfl

/-- C2: at most one regeneration pass ever occurs — the reviewer is
invoked at most twice and the generator at most twice per chunk,
regardless of the second review's content. -/
theorem claim_c2_at_most_one_retry (env : Env) (t u d s : List Char) (out : Outcome)
    (h : _run_pipeline env t u d s = some out) :
    out.qaCalls ≤ 2 ∧ out.genCallsPerChunk ≤ 2 := by
  obtain ⟨chunks, candidates, accepted1, rejected, rows, hg, hq, hrows, rfl⟩ :=
    run_pipeline_char env t u d s out h
  constructor <;> dsimp only <;> split <;> omega

/-- C2 witness: a retried run whose second review also reports a high
rejection count still makes only two reviewer calls. -/
theorem claim_c2_witness : c2wOut.qaCalls ≤ 2 ∧ c2wOut.genCallsPerChunk ≤ 2 :=
  claim_c2_at_most_one_retry c2wEnv (cs "t") (cs "u") (cs "d") (cs "s") c2wOut rfl

/-- C3 (amended): when a regeneration pass occurs and the second review's
output parses as an object, the final accepted set is exactly that
review's accepted list (the first pass's accepted set is discarded, never
merged); when the second review's output is not an object, the first
pass's accepted set is retained — lines 337-338 only overwrite on
`isinstance(qa_out2, dict)`. -/
theorem claim_c3_second_review_replaces (env : Env) (t u d s : List Char) (out : Outcome)
    (h : _run_pipeline env t u d s = some out) :
    (out.retried = true → ∀ f2, env.qa2 = AgentOut.json (JVal.obj f2) →
      out.finalAccepted = _ensure_list f2 (cs "accepted"))
    ∧ (out.retried = true → isDictOut env.qa2 = false →
      out.finalAccepted = out.accepted1) := by
  obtain ⟨chunks, candidates, accepted1, rejected, rows, hg, hq, hrows, rfl⟩ :=
    run_pipeline_char env t u d s out h
  dsimp only
  constructor
  · intro hr f2 hq2
    unfold finalAcceptedOf
    rw [if_pos hr, hq2]
  · intro hr hnd
    unfold finalAcceptedOf
    rw [if_pos hr]
    cases hq2 : env.qa2 with
    | raw r2 => rfl
    | json v =>
      cases v with
      | obj f2 => rw [hq2] at hnd; simp [isDictOut] at hnd
      | null => rfl
      | bool b => rfl
      | num n => rfl
      | str s2 => rfl
      | arr l2 => rfl

/-- C3 counterexample: a retried run whose second review output is an
unparseable string keeps the first pass's accepted card — the final
accepted set is not the second review's (empty) accepted list. -/
theorem claim_c3_counterexample :
    (_run_pipeline c3cEnv (cs "t") (cs "u") (cs "d") (cs "s")).map
      (fun o => (o.retried, o.finalAccepted, o.accepted1)) =
      some (true, [JVal.obj [(cs "front", JVal.str (cs "keep"))]],
        [JVal.obj [(cs "front", JVal.str (cs "keep"))]])
    ∧ reviewAccepted c3cEnv.qa2 = [] :=
  ⟨rfl, rfl⟩

/-- C3 witness: a retried run whose second review is a dict replaces the
accepted set with the second review's list. -/
theorem claim_c3_witness :
    c3wOut.finalAccepted =
      _ensure_list [(cs "accepted", JVal.arr [JVal.obj [(cs "front", JVal.str (cs "new"))]])]
        (cs "accepted") :=
  (claim_c3_second_review_replaces c3wEnv (cs "t") (cs "u") (cs "d") (cs "s") c3wOut rfl).1
    rfl _ rfl

/-- C4 (amended): when the **first** review's output is not an object,
the run does not raise: the pass counts as zero accepted and zero
rejected, no retry occurs, and the run completes with
`inserted_count = 0`.  (An unparseable **second** review instead leaves
the first pass's accepted set in place, see the counterexample.) -/
theorem claim_c4_unparsed_first_review (env : Env) (t u d s : List Char)
    (p : List (List (List Char × JVal)) × List JVal)
    (hg : genPhase env t = some p) (hq : isDictOut env.qa1 = false) :
    ∃ out, _run_pipeline env t u d s = some out ∧
      out.accepted1 = [] ∧ out.rejectedCount = 0 ∧ out.retried = false ∧
      out.finalAccepted = [] ∧ out.insertedCount = 0 := by
  obtain ⟨chunks, candidates⟩ := p
  unfold _run_pipeline
  rw [hg, qaPass_nonDict env.qa1 hq]
  simp only [retryCond_rejected_zero, Bool.false_eq_true, if_false]
  exact ⟨_, rfl, rfl, rfl, rfl, rfl, rfl⟩

/-- C4 counterexample: a run in which the (second) reviewer output is an
unparseable string completes with `inserted_count = 1`, because the first
pass's accepted card survives. -/
theorem claim_c4_counterexample :
    isDictOut c4cEnv.qa2 = false
    ∧ (_run_pipeline c4cEnv (cs "t") (cs "u") (cs "d") (cs "s")).map
        (fun o => (o.retried, o.insertedCount)) = some (true, 1) :=
  ⟨rfl, rfl⟩

/-- C4 witness: a concrete run whose first review output is a raw string
completes with zero accepted cards and `inserted_count = 0`. -/
theorem claim_c4_witness :
    ∃ out, _run_pipeline c4wEnv (cs "t") (cs "u") (cs "d") (cs "s") = some out ∧
      out.accepted1 = [] ∧ out.rejectedCount = 0 ∧ out.retried = false ∧
      out.finalAccepted = [] ∧ out.insertedCount = 0 :=
  claim_c4_unparsed_first_review c4wEnv (cs "t") (cs "u") (cs "d") (cs "s")
    ((genPhase c4wEnv (cs "t")).getD ([], [])) rfl rfl

/-- C5: whenever the segmenter's output could not be parsed (a raw
string came back) or yields no "chunks" value or an empty segment list,
the orchestrator substitutes exactly one synthetic segment with index 0,
span start 0 / end `length input`, and text equal to the input. -/
theorem claim_c5_segmenter_fallback (chunk_out : AgentOut) (t : List Char)
    (h : (∃ r, chunk_out = AgentOut.raw r) ∨ chunksField chunk_out = none
      ∨ chunksField chunk_out = some (JVal.arr [])) :
    resolveChunks chunk_out t = JVal.arr [JVal.obj [
      (cs "index", JVal.num 0),
      (cs "title", JVal.null),
      (cs "heading_level", JVal.null),
      (cs "language", JVal.str (cs "und")),
      (cs "span", JVal.obj [(cs "start", JVal.num 0), (cs "end", JVal.num t.length)]),
      (cs "text", JVal.str t)]] := by
  show resolveChunks chunk_out t = fallbackChunk t
  rcases h with ⟨r, rfl⟩ | h | h
  · rfl
  · cases chunk_out with
    | raw r => rfl
    | json v =>
      cases v with
      | obj f =>
        have hf : jget f (cs "chunks") = none := h
        simp [resolveChunks, hf]
      | null => rfl
      | bool b => rfl
      | num n => rfl
      | str s => rfl
      | arr l => rfl
  · cases chunk_out with
    | raw r => rfl
    | json v =>
      cases v with
      | obj f =>
        have hf : jget f (cs "chunks") = some (JVal.arr []) := h
        simp [resolveChunks, hf, jtruthy]
      | null => exact absurd h (by simp [chunksField])
      | bool b => exact absurd h (by simp [chunksField])
      | num n => exact absurd h (by simp [chunksField])
      | str s => exact absurd h (by simp [chunksField])
      | arr l => exact absurd h (by simp [chunksField])

/-- C5 witness: an unparseable segmenter output over the two-character
input "ab" yields the single synthetic whole-text segment. -/
theorem claim_c5_witness :
    resolveChunks (AgentOut.raw (cs "x")) (cs "ab") = JVal.arr [JVal.obj [
      (cs "index", JVal.num 0),
      (cs "title", JVal.null),
      (cs "heading_level", JVal.null),
      (cs "language", JVal.str (cs "und")),
      (cs "span", JVal.obj [(cs "start", JVal.num 0), (cs "end", JVal.num (cs "ab").length)]),
      (cs "text", JVal.str (cs "ab"))]] :=
  claim_c5_segmenter_fallback (AgentOut.raw (cs "x")) (cs "ab") (Or.inl ⟨cs "x", rfl⟩)

/-- C6: for every input, `_extract_json_from_text` equals the first
success among, in order, (a) parsing the contents of the first fenced
block tagged json, (b) parsing the contents of the first fenced code
block, (c) parsing the entire text — and is `none` when all three fail
(the empty-input guard coincides with all three strategies failing). -/
theorem claim_c6_three_strategies (t : List Char) :
    _extract_json_from_text json_loads t =
      firstSome3 (fencedJsonStrategy json_loads t) (fencedBlockStrategy json_loads t)
        (wholeTextStrategy json_loads t) := by
  cases t with
  | nil => rfl
  | cons c rest => rfl

/-- C7 (amended): the extractor round-trips the serialization of every
payload whose serialized form contains no fence marker (three backticks);
a fenced block inside a string field can hijack strategies (a)/(b), see
the counterexample. -/
theorem claim_c7_roundtrip_without_fences (v : JVal)
    (hrt : json_loads (json_dumps v) = some v)
    (hf : findSub (cs "```") (json_dumps v) = none) :
    _extract_json_from_text json_loads (json_dumps v) = some v := by
  have hne : (json_dumps v).isEmpty = false := by
    cases hd : json_dumps v with
    | nil =>
      rw [hd] at hrt
      exact absurd hrt (by simp [json_loads, jparse, skipWs, jparseDigits])
    | cons a l => rfl
  have hfj : findSub (cs "```json") (json_dumps v) = none := by
    cases hx : findSub (cs "```json") (json_dumps v) with
    | none => rfl
    | some k =>
      have h1 : (findSub (cs "```json") (json_dumps v)).isSome := by rw [hx]; rfl
      have h2 : (findSub (cs "```") (json_dumps v)).isSome :=
        findSub_isSome_mono (cs "```") (cs "```json") (by decide) (json_dumps v) h1
      rw [hf] at h2
      simp at h2
  unfold _extract_json_from_text
  simp only [hne, Bool.false_eq_true, if_false, pyFind, List.drop_zero, hfj, hf, Option.map_none']
  exact hrt

/-- C7 counterexample: the payload `{"a": "```json 12 ```"}` serializes
to text whose first fenced-json block parses as the number 12, so the
extractor returns 12 instead of the original object. -/
theorem claim_c7_counterexample :
    _extract_json_from_text json_loads (json_dumps c7Payload) = some (JVal.num 12)
    ∧ JVal.num 12 ≠ c7Payload :=
  ⟨rfl, fun h => JVal.noConfusion h⟩

/-- C7 witness: the fence-free payload `{"a": 1}` round-trips through the
extractor. -/
theorem claim_c7_witness :
    _extract_json_from_text json_loads (json_dumps (JVal.obj [(cs "a", JVal.num 1)])) =
      some (JVal.obj [(cs "a", JVal.num 1)]) :=
  claim_c7_roundtrip_without_fences (JVal.obj [(cs "a", JVal.num 1)]) rfl rfl

/-- C8 (amended): no agent raises on parse failure; the chunk-splitter,
content-instruction and quality agents return the parsed value when it is
truthy and the raw response text otherwise (in particular the raw text on
outright parse failure), while the card generator never returns the raw
text — it returns the parsed value, except that an extraction failure or
a successfully parsed JSON null (both reach the `is None` test as Python
`None`) yields an empty object. -/
theorem claim_c8_agent_return_shapes (t : List Char) :
    (∀ v, _extract_json_from_text json_loads t = some v → jtruthy v = true →
      ChunkSplitterAgent_run t = AgentOut.json v
      ∧ ContentInstructionAgent_run t = AgentOut.json v
      ∧ FlashcardQualityAgent_run t = AgentOut.json v
      ∧ FlashcardGeneratorAgent_run t = AgentOut.json v)
    ∧ (∀ v, _extract_json_from_text json_loads t = some v → jtruthy v = false →
      ChunkSplitterAgent_run t = AgentOut.raw t
      ∧ ContentInstructionAgent_run t = AgentOut.raw t
      ∧ FlashcardQualityAgent_run t = AgentOut.raw t)
    ∧ (∀ v, _extract_json_from_text json_loads t = some v → jtruthy v = false →
      v ≠ JVal.null → FlashcardGeneratorAgent_run t = AgentOut.json v)
    ∧ (_extract_json_from_text json_loads t = some JVal.null →
      FlashcardGeneratorAgent_run t = AgentOut.json (JVal.obj []))
    ∧ (_extract_json_from_text json_loads t = none →
      ChunkSplitterAgent_run t = AgentOut.raw t
      ∧ ContentInstructionAgent_run t = AgentOut.raw t
      ∧ FlashcardQualityAgent_run t = AgentOut.raw t
      ∧ FlashcardGeneratorAgent_run t = AgentOut.json (JVal.obj [])) := by
  refine ⟨?_, ?_, ?_, ?_, ?_⟩
  · intro v he ht
    have hgen : FlashcardGeneratorAgent_run t = AgentOut.json v := by
      unfold FlashcardGeneratorAgent_run
      rw [he]
      cases v with
      | null => simp [jtruthy] at ht
      | bool b => rfl
      | num n => rfl
      | str s => rfl
      | arr l => rfl
      | obj f => rfl
    have hpr : parsedOrRawReturn t = AgentOut.json v := by
      unfold parsedOrRawReturn
      rw [he]
      simp [ht]
    exact ⟨hpr, hpr, hpr, hgen⟩
  · intro v he ht
    have hpr : parsedOrRawReturn t = AgentOut.raw t := by
      unfold parsedOrRawReturn
      rw [he]
      simp [ht]
    exact ⟨hpr, hpr, hpr⟩
  · intro v he ht hv
    unfold FlashcardGeneratorAgent_run
    rw [he]
    cases v with
    | null => exact absurd rfl hv
    | bool b => rfl
    | num n => rfl
    | str s => rfl
    | arr l => rfl
    | obj f => rfl
  · intro he
    unfold FlashcardGeneratorAgent_run
    rw [he]
  · intro he
    have hpr : parsedOrRawReturn t = AgentOut.raw t := by
      unfold parsedOrRawReturn
      rw [he]
      simp [jtruthy]
    refine ⟨hpr, hpr, hpr, ?_⟩
    unfold FlashcardGeneratorAgent_run
    rw [he]

/-- C8 counterexample: on a response that fails to parse, the card
generator returns an empty object, not the raw response text. -/
theorem claim_c8_counterexample :
    _extract_json_from_text json_loads (cs "not json") = none
    ∧ FlashcardGeneratorAgent_run (cs "not json") = AgentOut.json (JVal.obj [])
    ∧ AgentOut.json (JVal.obj []) ≠ AgentOut.raw (cs "not json") :=
  ⟨rfl, rfl, fun h => AgentOut.noConfusion h⟩

/-- C8 witness: the three parse-or-raw agents hand back the raw text on
the unparseable response "not a payload" while the generator hands back
an empty object; and on the response "null", which parses to JSON null,
the generator also hands back an empty object. -/
theorem claim_c8_witness :
    (ChunkSplitterAgent_run (cs "not a payload") = AgentOut.raw (cs "not a payload")
      ∧ ContentInstructionAgent_run (cs "not a payload") = AgentOut.raw (cs "not a payload")
      ∧ FlashcardQualityAgent_run (cs "not a payload") = AgentOut.raw (cs "not a payload")
      ∧ FlashcardGeneratorAgent_run (cs "not a payload") = AgentOut.json (JVal.obj []))
    ∧ FlashcardGeneratorAgent_run (cs "null") = AgentOut.json (JVal.obj []) :=
  ⟨(claim_c8_agent_return_shapes (cs "not a payload")).2.2.2.2 rfl,
    (claim_c8_agent_return_shapes (cs "null")).2.2.2.1 rfl⟩

/-- C9 (amended): the orchestrator performs no deduplication of its own —
the final accepted set is whichever accepted list the reviewer produced,
so normalized-front uniqueness holds exactly when every reviewer-returned
accepted list satisfies it. -/
theorem claim_c9_dedup_preserved (env : Env) (t u d s : List Char) (out : Outcome)
    (h : _run_pipeline env t u d s = some out)
    (h1 : ((reviewAccepted env.qa1).map cardNormFront).Nodup)
    (h2 : ((reviewAccepted env.qa2).map cardNormFront).Nodup) :
    (out.finalAccepted.map cardNormFront).Nodup := by
  obtain ⟨chunks, candidates, accepted1, rejected, rows, hg, hq, hrows, rfl⟩ :=
    run_pipeline_char env t u d s out h
  dsimp only
  have ha : accepted1 = reviewAccepted env.qa1 := qaPass_accepted _ _ _ hq
  unfold finalAcceptedOf
  split
  · cases hq2 : env.qa2 with
    | raw r2 => rw [ha]; exact h1
    | json v =>
      cases v with
      | obj f2 =>
        rw [hq2] at h2
        exact h2
      | null => rw [ha]; exact h1
      | bool b => rw [ha]; exact h1
      | num n => rw [ha]; exact h1
      | str s2 => rw [ha]; exact h1
      | arr l2 => rw [ha]; exact h1
  · rw [ha]; exact h1

/-- C9 counterexample: a reviewer that accepts the same card twice makes
the final accepted set violate normalized-front uniqueness — the
orchestrator persists it unchanged. -/
theorem claim_c9_counterexample :
    (_run_pipeline c9cEnv (cs "t") (cs "u") (cs "d") (cs "s")).map
      (fun o => decide ((o.finalAccepted.map cardNormFront).Nodup)) = some false :=
  rfl

/-- C9 witness: with a reviewer whose accepted fronts are distinct, the
final accepted set keeps the dedup invariant. -/
theorem claim_c9_witness : ((c9wOut.finalAccepted).map cardNormFront).Nodup :=
  claim_c9_dedup_preserved c9wEnv (cs "t") (cs "u") (cs "d") (cs "s") c9wOut rfl
    (by decide) (by decide)

/-- C10: every accepted card that is a JSON object maps to a persistable
row, and each absent field is filled with its fixed default — type
"basic", front "", back "", hint null, tags [], difficulty 2, extras {}. -/
theorem claim_c10_row_defaults (u d s : List Char) (f : List (List Char × JVal)) :
    (∃ row, rowOfCard u d s (JVal.obj f) = some row)
    ∧ ∀ row, rowOfCard u d s (JVal.obj f) = some row →
        (jget f (cs "type") = none → row.type = JVal.str (cs "basic"))
        ∧ (jget f (cs "front") = none → row.front = JVal.str [])
        ∧ (jget f (cs "back") = none → row.back = JVal.str [])
        ∧ (jget f (cs "hint") = none → row.hint = JVal.null)
        ∧ (jget f (cs "tags") = none → row.tags = JVal.arr [])
        ∧ (jget f (cs "difficulty") = none → row.difficulty = JVal.num 2)
        ∧ (jget f (cs "extras") = none → row.extras = JVal.obj []) := by
  constructor
  · exact ⟨_, rfl⟩
  · intro row hrow
    have heq := Option.some.inj hrow
    subst heq
    refine ⟨?_, ?_, ?_, ?_, ?_, ?_, ?_⟩ <;> (intro hk; simp [hk])

/-- C10 witness: an accepted card with no fields at all is persisted with
every default filled in. -/
theorem claim_c10_witness :
    c10Row.type = JVal.str (cs "basic") ∧ c10Row.difficulty = JVal.num 2 :=
  ⟨((claim_c10_row_defaults (cs "u") (cs "d") (cs "s") []).2 c10Row rfl).1 rfl,
    (((claim_c10_row_defaults (cs "u") (cs "d") (cs "s") []).2 c10Row rfl).2.2.2.2.2).1 rfl⟩
